import Mathlib

/- Shallow embedding of the btrfs-backup orchestration engine.

The repository ships two revisions of the engine:
  * backup.go (package main, type BackupManager): verification and cleanup
    failures are only logged, the run still reports success;
  * internal/backup/manager.go (type Manager): every failing step is
    returned as an error by RunBackup.
The step functions themselves are line-identical between the two revisions
up to logging, so they are embedded once and the two RunBackup
compositions separately.  External effects (os.Stat, os.ReadDir,
os.ReadFile, the btrfs and restic subprocesses, the clock) are inputs: an
Env record holds the outcome of each call site of one run. -/

namespace BtrfsBackup

/-- Outcome of an os.Stat call as the Go code observes it: success, an
error for which os.IsNotExist holds, or any other error (e.g. permission
denied). -/
inductive StatResult where
  | ok
  | notExist
  | otherErr
deriving DecidableEq

/-- One entry of the snapshots directory: its name and the result of
entry.Info(), some modification time tick on success, none when Info()
fails. -/
structure FsEntry where
  name : String
  info : Option Nat
deriving DecidableEq

/-- State of the snapshots directory at listing time, binding the os.Stat
and os.ReadDir outcomes that getSnapshotsByPrefix performs to one
consistent filesystem: the directory is absent (stat yields not-exist and
ReadDir fails), present but unenumerable (ReadDir fails, e.g. permission
denied), or present with its entries. -/
inductive DirState where
  | absent
  | unlistable
  | listable (entries : List FsEntry)

/-- Value of os.IsNotExist applied to the os.Stat error for the snapshots
directory. -/
def DirState.statIsNotExist : DirState → Bool
  | .absent => true
  | .unlistable => false
  | .listable _ => false

/-- Outcome of os.ReadDir on the snapshots directory. -/
def DirState.readDir : DirState → Except Unit (List FsEntry)
  | .absent => .error ()
  | .unlistable => .error ()
  | .listable es => .ok es

/-- config.Config, restricted to the fields the engine reads. -/
structure Config where
  snapshotDir : String
  resticRepoDir : String
  resticBin : String

/-- config.TargetConfig as RunBackup consumes it.  KeepSnapshots is
validated non-negative before the workflow runs, so it is embedded as a
natural number.  The field Prefix of the source is named pfx here and
Type is named typ. -/
structure TargetConfig where
  subvolume : String
  pfx : String
  repository : String
  typ : String
  verify : Bool
  keepSnapshots : Nat

/-- Outcomes of the external calls of one RunBackup invocation; each field
records the result of exactly one call site of the source. -/
structure Env where
  snapDirStat : StatResult
  btrfsShowOk : Bool
  now : String
  snapCreateOk : Bool
  snapStatAfterCreate : StatResult
  snapStatBeforeBackup : StatResult
  repoStat : StatResult
  repoContent : Except Unit String
  osEnviron : List String
  resticBackupOk : Bool
  resticCheckOk : Bool
  snapDir : DirState
  deleteCmdOk : String → Bool
  statAfterDelete : String → StatResult

/-- filepath.Join for the dir/name joins the engine performs. -/
def joinPath (dir nm : String) : String := dir ++ "/" ++ nm

/-- Whitespace recognizer of strings.TrimSpace. -/
def isWsChar (c : Char) : Bool := c = ' ' || c = '\t' || c = '\n' || c = '\r'

/-- Quote recognizer for the strings.Trim cutset of one double quote
(code 34) and one single quote (code 39). -/
def isQuoteChar (c : Char) : Bool := c = Char.ofNat 34 || c = Char.ofNat 39

/-- Removal of leading and trailing characters satisfying p, the behavior
of strings.Trim / strings.TrimSpace on both sides. -/
def trimBoth (p : Char → Bool) (cs : List Char) : List Char :=
  ((cs.dropWhile p).reverse.dropWhile p).reverse

/-- strings.TrimSpace. -/
def trimWs (cs : List Char) : List Char := trimBoth isWsChar cs

/-- Go strings.Trim(s, cutset of double and single quote): every leading
and every trailing quote character is removed, the two ends independently. -/
def trimQuotes (cs : List Char) : List Char := trimBoth isQuoteChar cs

/-- strings.Split(s, newline): the pieces between newline characters,
with one trailing empty piece when the text ends in a newline. -/
def splitNl : List Char → List (List Char)
  | [] => [[]]
  | c :: cs =>
    if c = '\n' then [] :: splitNl cs
    else match splitNl cs with
      | l :: ls => (c :: l) :: ls
      | [] => [[c]]

/-- strings.Cut(line, colon) respectively strings.SplitN(line, colon, 2):
the text before the first colon and the text after it, or none when the
line has no colon. -/
def cutColon : List Char → Option (List Char × List Char)
  | [] => none
  | c :: cs =>
    if c = ':' then some ([], cs)
    else (cutColon cs).map fun kv => (c :: kv.1, kv.2)

/-- strings.HasPrefix: pat is a leading segment of s. -/
def startsWith : List Char → List Char → Bool
  | _, [] => true
  | [], _ :: _ => false
  | a :: as, b :: bs => a = b && startsWith as bs

/-- Per-line front end shared by the credential parser and by the simple
YAML target parser of the source: trim the line, skip blank lines and
lines starting with a hash, split at the first colon, trim both pieces.
The value still carries its quotes at this point. -/
def lineKV (line : List Char) : Option (List Char × List Char) :=
  let l := trimWs line
  if l = [] then none
  else if l.head? = some '#' then none
  else match cutColon l with
    | none => none
    | some kv => some (trimWs kv.1, trimWs kv.2)

/-- One line of Manager.loadRepositoryEnv / BackupManager.loadRepositoryEnv:
the produced KEY=VALUE entry, where the value additionally loses its
leading and trailing quote characters via strings.Trim. -/
def parseEnvLine (line : List Char) : Option (List Char) :=
  (lineKV line).map fun kv => kv.1 ++ '=' :: trimQuotes kv.2

/-- Body of the repository credential parser: the KEY=VALUE entries of all
lines, in file order. -/
def parseRepoConfig (data : String) : List String :=
  ((splitNl data.data).filterMap parseEnvLine).map String.mk

/-- Manager.loadRepositoryEnv / BackupManager.loadRepositoryEnv: fail when
the credential file is missing, fail when it cannot be read, otherwise
append the parsed entries to the ambient process environment. -/
def loadRepositoryEnv (cfg : Config) (e : Env) (repository : String) :
    Except String (List String) :=
  let repoFile := joinPath cfg.resticRepoDir repository
  if e.repoStat = .notExist then
    .error ("repository configuration " ++ repository ++ " not found: " ++ repoFile)
  else match e.repoContent with
    | .error _ => .error ("failed to read repository config " ++ repoFile)
    | .ok data => .ok (e.osEnviron ++ parseRepoConfig data)

/-- Insertion step of the newest-first ordering: x is placed before the
first element with strictly smaller modification time. -/
def insertDesc (x : String × Nat) : List (String × Nat) → List (String × Nat)
  | [] => [x]
  | y :: ys => if y.2 < x.2 then x :: y :: ys else y :: insertDesc x ys

/-- sort.Slice(snapshots, mtime of i After mtime of j): a reordering
consistent with the comparator, embedded as insertion sort. -/
def sortDesc : List (String × Nat) → List (String × Nat)
  | [] => []
  | x :: xs => insertDesc x (sortDesc xs)

/-- Intermediate snapshotInfo slice of getSnapshotsByPrefix after sorting:
entries named pfx followed by a dash, with their modification times,
entries whose Info() fails dropped, newest first. -/
def snapshotsWithTimes (entries : List FsEntry) (pfx : String) : List (String × Nat) :=
  sortDesc (entries.filterMap fun en =>
    if startsWith en.name.data (pfx ++ "-").data then
      en.info.map fun t => (en.name, t)
    else none)

/-- Manager.getSnapshotsByPrefix / BackupManager.getSnapshotsByPrefix:
empty result when the snapshots directory does not exist, an error when it
cannot be enumerated, otherwise the matching entry names newest first. -/
def getSnapshotsByPfx (d : DirState) (pfx : String) : Except String (List String) :=
  if d.statIsNotExist then .ok []
  else match d.readDir with
    | .error _ => .error "could not list snapshots directory"
    | .ok entries => .ok ((snapshotsWithTimes entries pfx).map Prod.fst)

/-- Names returned by a successful listing, empty on a listing error. -/
def listedNames (d : DirState) (pfx : String) : List String :=
  match getSnapshotsByPfx d pfx with
  | .ok l => l
  | .error _ => []

/-- BackupManager.getSnapshotsByPrefix of backup.go with its log.Printf
calls made explicit: the listing result together with the log lines the
call emits (one line when the directory is absent, one line per matching
entry whose Info() fails). -/
def getSnapshotsByPfxBM (cfg : Config) (d : DirState) (pfx : String) :
    Except String (List String) × List String :=
  if d.statIsNotExist then
    (.ok [], ["Snapshots directory does not exist: " ++ cfg.snapshotDir])
  else match d.readDir with
    | .error _ => (.error "could not list snapshots directory", [])
    | .ok entries =>
      (.ok ((snapshotsWithTimes entries pfx).map Prod.fst),
        entries.filterMap fun en =>
          if startsWith en.name.data (pfx ++ "-").data && en.info.isNone then
            some ("Could not get info for " ++ en.name)
          else none)

/-- Test for the error side of an Except value. -/
def exceptIsErr {ε α : Type} : Except ε α → Bool
  | .error _ => true
  | .ok _ => false

/-- Manager.deleteSnapshot / BackupManager.deleteSnapshot: run the delete
command, then re-stat the path; the deletion is reported failed when that
stat returns no error at all. -/
def deleteSnapshot (cfg : Config) (e : Env) (snapshotName : String) : Except String Unit :=
  let snapshotPath := joinPath cfg.snapshotDir snapshotName
  if e.deleteCmdOk snapshotName = false then
    .error ("BTRFS delete command failed for snapshot " ++ snapshotName)
  else if e.statAfterDelete snapshotName = .ok then
    .error ("snapshot still exists after deletion: " ++ snapshotPath)
  else .ok ()

/-- Retention selection step of CleanupOldSnapshots: nothing when the
inventory fits within the retention count, otherwise the slice of
snapshots from index retention on. -/
def selectForDeletion (snapshots : List String) (retention : Nat) : List String :=
  if snapshots.length ≤ retention then [] else snapshots.drop retention

/-- Manager.CleanupOldSnapshots / BackupManager.cleanupOldSnapshots: list
the inventory, keep the retention newest, attempt to delete every other
entry, collect the failed ones and report them as one aggregate error.
The second component is the list of snapshots whose deletion was
attempted, the destructive trace of the call. -/
def cleanupOldSnapshots (cfg : Config) (e : Env) (pfx : String) (retention : Nat) :
    Except String Unit × List String :=
  match getSnapshotsByPfx e.snapDir pfx with
  | .error m => (.error ("failed to list snapshots: " ++ m), [])
  | .ok snapshots =>
    if snapshots.length ≤ retention then (.ok (), [])
    else
      let toDelete := snapshots.drop retention
      let failed := toDelete.filter fun s => exceptIsErr (deleteSnapshot cfg e s)
      if failed = [] then (.ok (), toDelete)
      else (.error ("failed to delete some snapshots: " ++ String.intercalate " " failed),
        toDelete)

/-- Manager.ValidateEnvironment / BackupManager.validateEnvironment: the
snapshots directory must not be missing and the btrfs subvolume show
command must succeed. -/
def validateEnvironment (cfg : Config) (e : Env) (subvolume : String) : Except String Unit :=
  if e.snapDirStat = .notExist then
    .error ("snapshots directory does not exist: " ++ cfg.snapshotDir)
  else if e.btrfsShowOk then .ok ()
  else .error ("source subvolume invalid or not BTRFS: " ++ subvolume)

/-- Manager.CreateSnapshot / BackupManager.createSnapshot: name the
snapshot pfx dash timestamp, run the snapshot command, then re-stat the
destination. -/
def createSnapshot (cfg : Config) (e : Env) (pfx : String) : Except String String :=
  let snapshotName := pfx ++ "-" ++ e.now
  let snapshotPath := joinPath cfg.snapshotDir snapshotName
  if e.snapCreateOk = false then .error "BTRFS snapshot command failed"
  else if e.snapStatAfterCreate = .notExist then
    .error ("snapshot not found after creation: " ++ snapshotPath)
  else .ok snapshotPath

/-- Manager.PerformBackup / BackupManager.performBackup: re-check the
snapshot exists, load the repository credentials, run restic backup. -/
def performBackup (cfg : Config) (e : Env) (snapshotPath : String) (target : TargetConfig) :
    Except String Unit :=
  if e.snapStatBeforeBackup = .notExist then
    .error ("snapshot path does not exist: " ++ snapshotPath)
  else match loadRepositoryEnv cfg e target.repository with
    | .error m => .error ("repository configuration failed: " ++ m)
    | .ok _ =>
      if e.resticBackupOk then .ok ()
      else .error "restic backup command failed"

/-- Manager.VerifyRepository / BackupManager.verifyRepository: load the
credentials again and run restic check with a five percent data subset. -/
def verifyRepository (cfg : Config) (e : Env) (repository : String) : Except String Unit :=
  match loadRepositoryEnv cfg e repository with
  | .error m => .error ("repository configuration failed for verification: " ++ m)
  | .ok _ =>
    if e.resticCheckOk then .ok ()
    else .error ("repository verification failed: " ++ repository)

/-- Manager.RunBackup of internal/backup/manager.go: validate, snapshot,
backup, verify, cleanup, where every failing step, the verification and
the cleanup included, is returned as an error.  The second component is
the list of snapshot names whose deletion the run attempted. -/
def runBackupMgr (cfg : Config) (e : Env) (target : TargetConfig) :
    Except String Unit × List String :=
  match validateEnvironment cfg e target.subvolume with
  | .error m => (.error ("environment validation failed: " ++ m), [])
  | .ok _ =>
    match createSnapshot cfg e target.pfx with
    | .error m => (.error ("snapshot creation failed: " ++ m), [])
    | .ok snapshotPath =>
      match performBackup cfg e snapshotPath target with
      | .error m =>
        (.error ("backup operation failed (snapshot preserved at " ++ snapshotPath
          ++ "): " ++ m), [])
      | .ok _ =>
        match (if target.verify then verifyRepository cfg e target.repository else .ok ()) with
        | .error m => (.error ("repository verification failed: " ++ m), [])
        | .ok _ =>
          match cleanupOldSnapshots cfg e target.pfx target.keepSnapshots with
          | (.error m, dels) => (.error ("snapshot cleanup failed: " ++ m), dels)
          | (.ok _, dels) => (.ok (), dels)

/-- BackupManager.RunBackup of backup.go: validate, snapshot, backup are
fatal; a verification failure and a cleanup failure are only logged and
the run still succeeds.  On a backup failure the preserved snapshot path
appears in a log line but not in the returned error.  The second
component is the list of snapshot names whose deletion the run
attempted. -/
def runBackupBM (cfg : Config) (e : Env) (target : TargetConfig) :
    Except String Unit × List String :=
  match validateEnvironment cfg e target.subvolume with
  | .error m => (.error ("environment validation failed: " ++ m), [])
  | .ok _ =>
    match createSnapshot cfg e target.pfx with
    | .error m => (.error ("snapshot creation failed: " ++ m), [])
    | .ok snapshotPath =>
      match performBackup cfg e snapshotPath target with
      | .error m => (.error ("backup operation failed: " ++ m), [])
      | .ok _ =>
        (.ok (), (cleanupOldSnapshots cfg e target.pfx target.keepSnapshots).2)

/-- parseInt of src/main.go: decimal value of a digits-only string, minus
one as soon as any other rune appears, zero on the empty string. -/
def parseIntGo : Int → List Char → Int
  | acc, [] => acc
  | acc, c :: cs =>
    if '0' ≤ c ∧ c ≤ '9' then parseIntGo (acc * 10 + (Int.ofNat (c.toNat - '0'.toNat))) cs
    else -1

/-- TargetConfig as the simple loaders of src/main.go build it, with the
Go zero values before any line is applied. -/
structure TargetConfigRaw where
  subvolume : String
  pfx : String
  repository : String
  typ : String
  verify : Bool
  keepSnapshots : Int
deriving DecidableEq

/-- Go zero value of TargetConfig. -/
def emptyTargetRaw : TargetConfigRaw :=
  { subvolume := "", pfx := "", repository := "", typ := "", verify := false,
    keepSnapshots := 0 }

/-- Switch body of parseTargetYAML of src/main.go applied to one line. -/
def applyTargetLine (t : TargetConfigRaw) (line : List Char) : TargetConfigRaw :=
  match lineKV line with
  | none => t
  | some kv =>
    let k := kv.1
    let v := trimQuotes kv.2
    if k = "subvolume".data then { t with subvolume := String.mk v }
    else if k = "prefix".data then { t with pfx := String.mk v }
    else if k = "repository".data then { t with repository := String.mk v }
    else if k = "type".data then { t with typ := String.mk v }
    else if k = "verify".data then { t with verify := v = "true".data || v = "1".data }
    else if k = "keep_snapshots".data then
      if 0 ≤ parseIntGo 0 v then { t with keepSnapshots := parseIntGo 0 v } else t
    else t

/-- parseTargetYAML of src/main.go over the whole file content. -/
def parseTargetYAMLEmb (data : String) : TargetConfigRaw :=
  (splitNl data.data).foldl applyTargetLine emptyTargetRaw

/-- setTargetDefaults of src/main.go (struct revision): type defaults to
incremental when empty, KeepSnapshots defaults to 3 when zero. -/
def setTargetDefaultsStruct (t : TargetConfigRaw) : TargetConfigRaw :=
  let t1 := if t.typ = "" then { t with typ := "incremental" } else t
  if t1.keepSnapshots = 0 then { t1 with keepSnapshots := 3 } else t1

/-- loadTargetConfig of src/main.go on the YAML path: parse, then apply
the defaults. -/
def loadTargetConfigStruct (data : String) : TargetConfigRaw :=
  setTargetDefaultsStruct (parseTargetYAMLEmb data)

/-- Keep count as the Viper revision of the config loader resolves it
(src/main.go, setTargetDefaults via v.SetDefault).  Modelled from the
Viper library contract: SetDefault supplies the lowest-priority value, so
a key present in the configuration file overrides the default even when
its value is zero, and the default applies only when the key is absent. -/
def viperKeepSnapshots (fileVals : List (String × Int)) : Int :=
  match fileVals.lookup "keep_snapshots" with
  | some v => v
  | none => 3

/-- Unquoting rule exactly as the specification words it: strip one layer
of matching leading and trailing single or double quotes from the value.
Written from the spec in order to compare it against the strings.Trim
behavior of the source. -/
def specUnquoteOneLayer (v : List Char) : List Char :=
  match v.head?, v.getLast? with
  | some a, some b =>
    if 2 ≤ v.length ∧ a = b ∧ isQuoteChar a then v.tail.dropLast else v
  | _, _ => v

/-- Parsing rule of claim C4 as written: split on the first colon, trim
whitespace on both sides, strip one layer of matching quotes from the
value. -/
def specParseEnvLineC4 (line : List Char) : Option (List Char) :=
  (lineKV line).map fun kv => kv.1 ++ '=' :: specUnquoteOneLayer kv.2

/-- Removal of every leading quote character, one at a time. -/
def stripQuotesFront : List Char → List Char
  | [] => []
  | c :: cs => if isQuoteChar c then stripQuotesFront cs else c :: cs

/-- Amended unquoting rule: remove every leading and every trailing single
or double quote character, the two ends independently and without any
matching requirement, written as an independent recursion to compare with
the strings.Trim behavior of the source. -/
def stripQuotesBothRec (v : List Char) : List Char :=
  (stripQuotesFront (stripQuotesFront v).reverse).reverse

/-- Parsing rule of claim C4 as amended: split on the first colon, trim
whitespace on both sides, strip all leading and trailing quote characters
from the value. -/
def specParseEnvLineC4Amended (line : List Char) : Option (List Char) :=
  (lineKV line).map fun kv => kv.1 ++ '=' :: stripQuotesBothRec kv.2

/-- Occurrence of pat as a contiguous segment of s. -/
def hasSubSeq : List Char → List Char → Bool
  | [], pat => pat.isEmpty
  | c :: rest, pat => startsWith (c :: rest) pat || hasSubSeq rest pat

/-- Occurrence of pat as a contiguous substring of s. -/
def strHasSub (s pat : String) : Bool := hasSubSeq s.data pat.data

/-- Sample configuration for concrete runs. -/
def cfgA : Config :=
  { snapshotDir := "/snapshots", resticRepoDir := "/repos", resticBin := "/usr/bin/restic" }

/-- Sample target with verification enabled and a retention of one. -/
def tgtA : TargetConfig :=
  { subvolume := "/mnt/home", pfx := "home", repository := "b2-home",
    typ := "incremental", verify := true, keepSnapshots := 1 }

/-- Environment of a run where validation, snapshot creation and backup
all succeed, the repository check fails, and every deletion fails. -/
def envA : Env :=
  { snapDirStat := .ok
  , btrfsShowOk := true
  , now := "20230101-120000"
  , snapCreateOk := true
  , snapStatAfterCreate := .ok
  , snapStatBeforeBackup := .ok
  , repoStat := .ok
  , repoContent := .ok "RESTIC_REPOSITORY: b2:bucket/path"
  , osEnviron := []
  , resticBackupOk := true
  , resticCheckOk := false
  , snapDir := .listable [⟨"home-20221230-120000", some 10⟩, ⟨"home-20221229-120000", some 5⟩]
  , deleteCmdOk := fun _ => false
  , statAfterDelete := fun _ => .ok }

/-- Environment of a run where the restic backup command fails. -/
def envB : Env := { envA with resticBackupOk := false }

/-- Snapshots directory holding one matching entry whose Info() fails and
one readable matching entry. -/
def entriesC9 : List FsEntry :=
  [⟨"home-20230101-120000", none⟩, ⟨"home-20230102-120000", some 3⟩]

/-- Environment whose snapshots directory is entriesC9 and whose deletions
succeed. -/
def envC9 : Env :=
  { envA with
    snapDir := DirState.listable entriesC9,
    deleteCmdOk := fun _ => true,
    statAfterDelete := fun _ => .notExist }

/-- Environment whose post-deletion stat fails with a permission error. -/
def envD1 : Env :=
  { envA with deleteCmdOk := fun _ => true, statAfterDelete := fun _ => .otherErr }

/-- Environment whose post-deletion stat succeeds, meaning the snapshot is
still present. -/
def envD2 : Env := { envA with deleteCmdOk := fun _ => true }

/- Helper lemmas about the embedded list and string operations. -/

theorem startsWith_append (a b : List Char) : startsWith (a ++ b) a = true := by
  induction a with
  | nil => simp [startsWith]
  | cons c cs ih => simp [startsWith, ih]

theorem mem_insertDesc (x a : String × Nat) (l : List (String × Nat)) :
    a ∈ insertDesc x l ↔ a = x ∨ a ∈ l := by
  induction l with
  | nil => simp [insertDesc]
  | cons y ys ih =>
    simp only [insertDesc]
    split
    · simp [List.mem_cons]
    · simp [List.mem_cons, ih]
      tauto

theorem mem_sortDesc (a : String × Nat) (l : List (String × Nat)) :
    a ∈ sortDesc l ↔ a ∈ l := by
  induction l with
  | nil => simp [sortDesc]
  | cons x xs ih => simp [sortDesc, mem_insertDesc, ih]

theorem pairwise_insertDesc (x : String × Nat) (l : List (String × Nat))
    (h : l.Pairwise fun a b => b.2 ≤ a.2) :
    (insertDesc x l).Pairwise fun a b => b.2 ≤ a.2 := by
  induction l with
  | nil => simp [insertDesc]
  | cons y ys ih =>
    rcases List.pairwise_cons.mp h with ⟨hy, hys⟩
    simp only [insertDesc]
    split
    · rename_i hlt
      refine List.pairwise_cons.mpr ⟨?_, h⟩
      intro z hz
      rcases List.mem_cons.mp hz with rfl | hz'
      · exact Nat.le_of_lt hlt
      · exact le_trans (hy z hz') (Nat.le_of_lt hlt)
    · rename_i hnlt
      refine List.pairwise_cons.mpr ⟨?_, ih hys⟩
      intro z hz
      rcases (mem_insertDesc x z ys).mp hz with rfl | hz'
      · exact Nat.le_of_not_lt hnlt
      · exact hy z hz'

theorem pairwise_sortDesc (l : List (String × Nat)) :
    (sortDesc l).Pairwise fun a b => b.2 ≤ a.2 := by
  induction l with
  | nil => simp [sortDesc]
  | cons x xs ih => exact pairwise_insertDesc x (sortDesc xs) ih

theorem hasSubSeq_of_startsWith (s pat : List Char) (h : startsWith s pat = true) :
    hasSubSeq s pat = true := by
  cases s with
  | nil =>
    cases pat with
    | nil => rfl
    | cons c cs => simp [startsWith] at h
  | cons c cs => simp [hasSubSeq, h]

theorem hasSubSeq_append (a s pat : List Char) (h : hasSubSeq s pat = true) :
    hasSubSeq (a ++ s) pat = true := by
  induction a with
  | nil => simpa using h
  | cons c cs ih => simp [hasSubSeq, ih]

theorem stripQuotesFront_eq (l : List Char) :
    stripQuotesFront l = l.dropWhile isQuoteChar := by
  induction l with
  | nil => rfl
  | cons c cs ih =>
    rw [List.dropWhile_cons]
    by_cases h : isQuoteChar c
    · simp [stripQuotesFront, h, ih]
    · simp [stripQuotesFront, h]

theorem stripQuotesBothRec_eq (v : List Char) : stripQuotesBothRec v = trimQuotes v := by
  simp [stripQuotesBothRec, trimQuotes, trimBoth, stripQuotesFront_eq]

theorem cleanup_trace_sub (cfg : Config) (e : Env) (pfx : String) (k : Nat) :
    ∀ x ∈ (cleanupOldSnapshots cfg e pfx k).2, x ∈ listedNames e.snapDir pfx := by
  intro x hx
  unfold cleanupOldSnapshots at hx
  unfold listedNames
  cases h : getSnapshotsByPfx e.snapDir pfx with
  | error m => rw [h] at hx; simp at hx
  | ok snaps =>
    rw [h] at hx
    by_cases hlen : snaps.length ≤ k
    · simp [hlen] at hx
    · simp only [hlen, if_false] at hx
      split at hx <;> exact List.drop_subset k snaps hx

/-- Claim C3: for every newest-first inventory and keep count, the
retention selection is exactly the slice from index keepCount on: max(0,
n-k) entries, the oldest ones, the kept prefix unchanged; keepCount zero
selects everything, an inventory that fits is left alone; and the cleanup
routine attempts deletion on exactly that selection. -/
theorem c3_retention_selection :
    (∀ (l : List String) (k : Nat),
      selectForDeletion l k = l.drop k
      ∧ (selectForDeletion l k).length = l.length - k
      ∧ l.take k ++ selectForDeletion l k = l
      ∧ selectForDeletion l 0 = l
      ∧ (l.length ≤ k → selectForDeletion l k = []))
    ∧ (∀ (entries : List (String × Nat)) (k : Nat),
        ∀ x ∈ (sortDesc entries).drop k, ∀ y ∈ (sortDesc entries).take k, x.2 ≤ y.2)
    ∧ (∀ (cfg : Config) (e : Env) (pfx : String) (k : Nat) (snaps : List String),
        getSnapshotsByPfx e.snapDir pfx = .ok snaps →
        (cleanupOldSnapshots cfg e pfx k).2 = selectForDeletion snaps k) := by
  have hsel : ∀ (l : List String) (k : Nat), selectForDeletion l k = l.drop k := by
    intro l k
    unfold selectForDeletion
    split
    · exact (List.drop_eq_nil_of_le (by assumption)).symm
    · rfl
  refine ⟨?_, ?_, ?_⟩
  · intro l k
    refine ⟨hsel l k, ?_, ?_, ?_, ?_⟩
    · rw [hsel, List.length_drop]
    · rw [hsel, List.take_append_drop]
    · rw [hsel, List.drop_zero]
    · intro h
      rw [hsel]
      exact List.drop_eq_nil_of_le h
  · intro entries k x hx y hy
    have hp : ((sortDesc entries).take k ++ (sortDesc entries).drop k).Pairwise
        (fun a b : String × Nat => b.2 ≤ a.2) := by
      rw [List.take_append_drop]
      exact pairwise_sortDesc entries
    exact (List.pairwise_append.mp hp).2.2 y hy x hx
  · intro cfg e pfx k snaps h
    unfold cleanupOldSnapshots selectForDeletion
    rw [h]
    by_cases hlen : snaps.length ≤ k
    · simp [hlen]
    · simp only [hlen, if_false]
      split <;> rfl

/-- Witness for c3_retention_selection at concrete inventories, including
a run of the cleanup routine over a concrete environment. -/
theorem c3_retention_selection_witness :
    selectForDeletion ["a", "b"] 3 = []
    ∧ (cleanupOldSnapshots cfgA envA "home" 1).2
      = selectForDeletion ["home-20221230-120000", "home-20221229-120000"] 1 :=
  ⟨(c3_retention_selection.1 ["a", "b"] 3).2.2.2.2 (by decide),
   c3_retention_selection.2.2 cfgA envA "home" 1
     ["home-20221230-120000", "home-20221229-120000"] rfl⟩

/-- Claim C6: listing the inventory for an absent snapshots root returns
the empty sequence without an error, and a listing error occurs exactly
when the directory exists but cannot be enumerated. -/
theorem c6_absent_dir_listing :
    (∀ pfx : String, getSnapshotsByPfx .absent pfx = .ok [])
    ∧ (∀ (d : DirState) (pfx : String),
        (∃ msg, getSnapshotsByPfx d pfx = .error msg) ↔ d = .unlistable) := by
  refine ⟨fun _ => rfl, fun d pfx => ?_⟩
  cases d with
  | absent => simp [getSnapshotsByPfx, DirState.statIsNotExist, DirState.readDir]
  | unlistable => simp [getSnapshotsByPfx, DirState.statIsNotExist, DirState.readDir]
  | listable es => simp [getSnapshotsByPfx, DirState.statIsNotExist, DirState.readDir]

/-- Claim C7: a successful listing is the name sequence of the matching
entries ordered by modification time descending: the time of every entry
is at least the time of its successor. -/
theorem c7_listing_sorted_desc (entries : List FsEntry) (pfx : String) :
    getSnapshotsByPfx (.listable entries) pfx
      = .ok ((snapshotsWithTimes entries pfx).map Prod.fst)
    ∧ (snapshotsWithTimes entries pfx).Chain' (fun a b => b.2 ≤ a.2) :=
  ⟨rfl, List.Pairwise.chain' (pairwise_sortDesc _)⟩

/-- Claim C1 counterexample: a concrete run of Manager.RunBackup
(internal/backup/manager.go) in which validation, snapshot creation and
backup all succeed, yet the run returns an error because the repository
verification failed; so in that revision a verification failure is not
downgraded to a warning. -/
theorem c1_verify_fatal_cex :
    validateEnvironment cfgA envA tgtA.subvolume = .ok ()
    ∧ createSnapshot cfgA envA tgtA.pfx = .ok "/snapshots/home-20230101-120000"
    ∧ performBackup cfgA envA "/snapshots/home-20230101-120000" tgtA = .ok ()
    ∧ tgtA.verify = true
    ∧ exceptIsErr (runBackupMgr cfgA envA tgtA).1 = true :=
  ⟨rfl, rfl, rfl, rfl, rfl⟩

/-- Claim C1 (amended): in the backup.go revision
(BackupManager.RunBackup), whenever validation, snapshot creation and
backup all succeed, the run returns overall success regardless of the
verification and cleanup outcomes; in the internal Manager revision a
verification or cleanup failure is returned as an error instead. -/
theorem c1_steps123_success_bm (cfg : Config) (e : Env) (target : TargetConfig) (p : String)
    (h1 : validateEnvironment cfg e target.subvolume = .ok ())
    (h2 : createSnapshot cfg e target.pfx = .ok p)
    (h3 : performBackup cfg e p target = .ok ()) :
    (runBackupBM cfg e target).1 = .ok () := by
  unfold runBackupBM
  simp only [h1, h2, h3]

/-- Witness for c1_steps123_success_bm at a concrete run where the
repository check and every deletion fail and the run still succeeds. -/
theorem c1_steps123_success_bm_witness :
    exceptIsErr (verifyRepository cfgA envA tgtA.repository) = true
    ∧ exceptIsErr (cleanupOldSnapshots cfgA envA tgtA.pfx tgtA.keepSnapshots).1 = true
    ∧ (runBackupBM cfgA envA tgtA).1 = .ok () :=
  ⟨rfl, rfl,
    c1_steps123_success_bm cfgA envA tgtA "/snapshots/home-20230101-120000" rfl rfl rfl⟩

/-- Claim C2 (amended): when the backup step fails after a successful
validation and snapshot creation, both revisions return a fatal error and
neither attempts any snapshot deletion, so the snapshot stays in place;
the error message of the internal Manager revision contains the preserved
snapshot path, while the message returned by the backup.go revision does
not carry the path (it is only logged). -/
theorem c2_backup_failure_preserves (cfg : Config) (e : Env) (target : TargetConfig)
    (p m : String)
    (h1 : validateEnvironment cfg e target.subvolume = .ok ())
    (h2 : createSnapshot cfg e target.pfx = .ok p)
    (h3 : performBackup cfg e p target = .error m) :
    (runBackupMgr cfg e target).1
      = .error ("backup operation failed (snapshot preserved at " ++ p ++ "): " ++ m)
    ∧ strHasSub ("backup operation failed (snapshot preserved at " ++ p ++ "): " ++ m) p = true
    ∧ (runBackupMgr cfg e target).2 = []
    ∧ exceptIsErr (runBackupBM cfg e target).1 = true
    ∧ (runBackupBM cfg e target).2 = [] := by
  refine ⟨?_, ?_, ?_, ?_, ?_⟩
  · unfold runBackupMgr
    simp only [h1, h2, h3]
  · unfold strHasSub
    have h2' : hasSubSeq (p.data ++ ("): " ++ m).data) p.data = true :=
      hasSubSeq_of_startsWith _ _ (startsWith_append _ _)
    have h3' := hasSubSeq_append
      "backup operation failed (snapshot preserved at ".data _ _ h2'
    simpa [String.data_append, List.append_assoc] using h3'
  · unfold runBackupMgr
    simp only [h1, h2, h3]
  · unfold runBackupBM
    simp only [h1, h2, h3]
    rfl
  · unfold runBackupBM
    simp only [h1, h2, h3]

/-- Witness for c2_backup_failure_preserves at a concrete run whose restic
backup command fails. -/
theorem c2_backup_failure_preserves_witness :
    (runBackupMgr cfgA envB tgtA).1 = .error
      "backup operation failed (snapshot preserved at /snapshots/home-20230101-120000): restic backup command failed"
    ∧ (runBackupMgr cfgA envB tgtA).2 = []
    ∧ (runBackupBM cfgA envB tgtA).2 = [] := by
  have h := c2_backup_failure_preserves cfgA envB tgtA
    "/snapshots/home-20230101-120000" "restic backup command failed" rfl rfl rfl
  exact ⟨h.1, h.2.2.1, h.2.2.2.2⟩

/-- Claim C2 counterexample: in the backup.go revision the fatal error
returned for a failing backup step does not include the snapshot path,
even though the snapshot was created at that path. -/
theorem c2_bm_message_cex :
    createSnapshot cfgA envB tgtA.pfx = .ok "/snapshots/home-20230101-120000"
    ∧ (runBackupBM cfgA envB tgtA).1
      = .error "backup operation failed: restic backup command failed"
    ∧ strHasSub "backup operation failed: restic backup command failed"
      "/snapshots/home-20230101-120000" = false :=
  ⟨rfl, rfl, rfl⟩

/-- Claim C4 counterexample: on the line RESTIC_PASSWORD: ""secret""
the strings.Trim call of the source removes both quote layers and yields
RESTIC_PASSWORD=secret, while the claimed rule of stripping one layer of
matching quotes would yield RESTIC_PASSWORD="secret". -/
theorem c4_quote_stripping_cex :
    parseEnvLine "RESTIC_PASSWORD: \"\"secret\"\"".data
      ≠ specParseEnvLineC4 "RESTIC_PASSWORD: \"\"secret\"\"".data
    ∧ parseEnvLine "RESTIC_PASSWORD: \"\"secret\"\"".data
      = some "RESTIC_PASSWORD=secret".data
    ∧ specParseEnvLineC4 "RESTIC_PASSWORD: \"\"secret\"\"".data
      = some "RESTIC_PASSWORD=\"secret\"".data := by
  refine ⟨?_, rfl, rfl⟩
  decide

/-- Claim C4 (amended): for every non-blank non-comment line the value is
obtained by splitting on the first colon, trimming whitespace from both
sides, then stripping every leading and trailing single or double quote
character (any number of layers, matching not required); lines with no
colon, blank lines and comment lines are silently skipped, and the
scenario line RESTIC_PASSWORD: "secret" yields RESTIC_PASSWORD=secret. -/
theorem c4_credential_line_parsing :
    (∀ line : List Char, parseEnvLine line = specParseEnvLineC4Amended line)
    ∧ parseRepoConfig "RESTIC_REPOSITORY: b2:bucket/path\nRESTIC_PASSWORD: \"secret\""
      = ["RESTIC_REPOSITORY=b2:bucket/path", "RESTIC_PASSWORD=secret"]
    ∧ parseEnvLine "no colon line".data = none
    ∧ parseEnvLine "# RESTIC_PASSWORD: x".data = none
    ∧ parseEnvLine "   ".data = none := by
  refine ⟨?_, rfl, rfl, rfl, rfl⟩
  intro line
  unfold parseEnvLine specParseEnvLineC4Amended
  simp [stripQuotesBothRec_eq]

/-- Claim C5 counterexample: the snapshot created for prefix home with
timestamp 20230101-120000 is also found when listing for the different
prefix home-20230101, because prefix filtering is plain string prefixing. -/
theorem c5_roundtrip_cex :
    ("home" ++ "-" ++ "20230101-120000" : String) = "home-20230101-120000"
    ∧ ("home-20230101" : String) ≠ "home"
    ∧ getSnapshotsByPfx (.listable [⟨"home-20230101-120000", some 5⟩]) "home-20230101"
      = .ok ["home-20230101-120000"] :=
  ⟨rfl, by decide, rfl⟩

/-- Claim C5 (amended): an entry created with name prefix-timestamp is
found by listing for its own prefix, and is excluded from the listing for
any other prefix such that the other prefix followed by a dash is not a
leading segment of the entry name; an other prefix that is such a leading
segment (for example a dash-bounded ancestor of the prefix) does list it. -/
theorem c5_created_entry_listing (entries : List FsEntry) (pfx ts other : String) (t : Nat)
    (hmem : (⟨pfx ++ "-" ++ ts, some t⟩ : FsEntry) ∈ entries) :
    (pfx ++ "-" ++ ts) ∈ listedNames (.listable entries) pfx
    ∧ (startsWith (pfx ++ "-" ++ ts).data (other ++ "-").data = false →
        (pfx ++ "-" ++ ts) ∉ listedNames (.listable entries) other) := by
  constructor
  · show (pfx ++ "-" ++ ts) ∈ (snapshotsWithTimes entries pfx).map Prod.fst
    apply List.mem_map.mpr
    refine ⟨(pfx ++ "-" ++ ts, t), ?_, rfl⟩
    apply (mem_sortDesc _ _).mpr
    apply List.mem_filterMap.mpr
    refine ⟨⟨pfx ++ "-" ++ ts, some t⟩, hmem, ?_⟩
    have hsw : startsWith (pfx ++ "-" ++ ts).data (pfx ++ "-").data = true := by
      have hd : (pfx ++ "-" ++ ts).data = (pfx ++ "-").data ++ ts.data := by
        rw [← String.data_append]
      rw [hd]
      exact startsWith_append _ _
    rw [if_pos hsw]
    rfl
  · intro hns hmem2
    have hmem2' : (pfx ++ "-" ++ ts) ∈ (snapshotsWithTimes entries other).map Prod.fst := hmem2
    rcases List.mem_map.mp hmem2' with ⟨pair, hpair, hfst⟩
    rcases List.mem_filterMap.mp ((mem_sortDesc pair _).mp hpair) with ⟨en, _, hsome⟩
    split at hsome
    · rename_i hs
      rcases Option.map_eq_some'.mp hsome with ⟨t', _, hpt⟩
      have hname : en.name = pfx ++ "-" ++ ts := by
        rw [← hpt] at hfst
        simpa using hfst
      rw [hname] at hs
      rw [hs] at hns
      exact Bool.noConfusion hns
    · simp at hsome

/-- Witness for c5_created_entry_listing at a concrete one-entry
directory. -/
theorem c5_created_entry_listing_witness :
    ("data-20240101-000000" : String)
      ∈ listedNames (.listable [⟨"data-20240101-000000", some 7⟩]) "data"
    ∧ ("data-20240101-000000" : String)
      ∉ listedNames (.listable [⟨"data-20240101-000000", some 7⟩]) "backup" := by
  have h := c5_created_entry_listing [⟨"data" ++ "-" ++ "20240101-000000", some 7⟩]
    "data" "20240101-000000" "backup" 7 (by decide)
  exact ⟨h.1, h.2 (by decide)⟩

/-- Claim C8 counterexample: in the Viper revision of the target loader an
explicit keep_snapshots value of zero is kept, so the loaded keep count is
0 and not 3. -/
theorem c8_viper_zero_cex :
    viperKeepSnapshots [("keep_snapshots", 0)] = 0
    ∧ viperKeepSnapshots [("keep_snapshots", 0)] ≠ 3 :=
  ⟨rfl, by decide⟩

/-- Claim C8 (amended): the keep count defaults to 3; in the struct-based
loader of src/main.go the default applies both when the field is absent
and when it is explicitly zero, while in the Viper-based loader it
applies only when the key is absent from the file and an explicit zero is
kept. -/
theorem c8_keep_count_default :
    (∀ t : TargetConfigRaw, t.keepSnapshots = 0 →
      (setTargetDefaultsStruct t).keepSnapshots = 3)
    ∧ (∀ t : TargetConfigRaw, t.keepSnapshots ≠ 0 →
        (setTargetDefaultsStruct t).keepSnapshots = t.keepSnapshots)
    ∧ (loadTargetConfigStruct
        "subvolume: /mnt/data\nprefix: home\nrepository: b2-home").keepSnapshots = 3
    ∧ (loadTargetConfigStruct "keep_snapshots: 0").keepSnapshots = 3
    ∧ (∀ vals : List (String × Int), vals.lookup "keep_snapshots" = none →
        viperKeepSnapshots vals = 3)
    ∧ viperKeepSnapshots [("keep_snapshots", 7)] = 7 := by
  refine ⟨?_, ?_, rfl, rfl, ?_, rfl⟩
  · intro t h
    by_cases ht : t.typ = "" <;> simp [setTargetDefaultsStruct, ht, h]
  · intro t h
    by_cases ht : t.typ = "" <;> simp [setTargetDefaultsStruct, ht, h]
  · intro vals h
    unfold viperKeepSnapshots
    rw [h]

/-- Witness for c8_keep_count_default at the zero-valued target and an
empty Viper file. -/
theorem c8_keep_count_default_witness :
    (setTargetDefaultsStruct emptyTargetRaw).keepSnapshots = 3
    ∧ viperKeepSnapshots [] = 3 :=
  ⟨c8_keep_count_default.1 emptyTargetRaw rfl,
   c8_keep_count_default.2.2.2.2.1 [] rfl⟩

/-- Claim C9 counterexample: in the backup.go revision an entry matching
the prefix whose Info() fails is dropped from the result, but a log line
naming it is emitted, so the drop is not free of any warning. -/
theorem c9_silently_dropped_cex :
    (getSnapshotsByPfxBM cfgA (.listable [⟨"home-20230101-120000", none⟩]) "home").1
      = .ok []
    ∧ (getSnapshotsByPfxBM cfgA (.listable [⟨"home-20230101-120000", none⟩]) "home").2
      = ["Could not get info for home-20230101-120000"] :=
  ⟨rfl, rfl⟩

/-- Claim C9 (amended): an entry whose metadata cannot be read is dropped
from the returned sequence without an error: it never appears in the
ordering, is never counted toward the keep count and is never selected
for deletion; the internal Manager revision drops it silently while the
backup.go revision logs a message naming it. -/
theorem c9_unreadable_entry_dropped (cfg : Config) (e : Env) (entries : List FsEntry)
    (pfx nm : String) (k : Nat)
    (hinfo : ∀ en ∈ entries, en.name = nm → en.info = none)
    (hdir : e.snapDir = .listable entries) :
    nm ∉ listedNames (.listable entries) pfx
    ∧ getSnapshotsByPfx (.listable entries) pfx
      = .ok (listedNames (.listable entries) pfx)
    ∧ nm ∉ (cleanupOldSnapshots cfg e pfx k).2
    ∧ (startsWith nm.data (pfx ++ "-").data = true → (⟨nm, none⟩ : FsEntry) ∈ entries →
        ("Could not get info for " ++ nm)
          ∈ (getSnapshotsByPfxBM cfg (.listable entries) pfx).2) := by
  have hnot : nm ∉ listedNames (.listable entries) pfx := by
    intro hmem
    have hmem' : nm ∈ (snapshotsWithTimes entries pfx).map Prod.fst := hmem
    rcases List.mem_map.mp hmem' with ⟨pair, hpair, hfst⟩
    rcases List.mem_filterMap.mp ((mem_sortDesc pair _).mp hpair) with ⟨en, hen, hsome⟩
    split at hsome
    · rcases Option.map_eq_some'.mp hsome with ⟨t', ht', hpt⟩
      have hname : en.name = nm := by
        rw [← hpt] at hfst
        simpa using hfst
      rw [hinfo en hen hname] at ht'
      exact Option.noConfusion ht'
    · simp at hsome
  refine ⟨hnot, rfl, ?_, ?_⟩
  · intro hmem
    have := cleanup_trace_sub cfg e pfx k nm hmem
    rw [hdir] at this
    exact hnot this
  · intro hs hen
    show ("Could not get info for " ++ nm) ∈ entries.filterMap _
    apply List.mem_filterMap.mpr
    refine ⟨⟨nm, none⟩, hen, ?_⟩
    have hc : (startsWith nm.data (pfx ++ "-").data
        && (FsEntry.mk nm none).info.isNone) = true := by
      rw [hs]
      rfl
    rw [if_pos hc]

/-- Witness for c9_unreadable_entry_dropped at the concrete directory
entriesC9 with keep count zero. -/
theorem c9_unreadable_entry_dropped_witness :
    ("home-20230101-120000" : String) ∉ listedNames (.listable entriesC9) "home"
    ∧ ("home-20230101-120000" : String) ∉ (cleanupOldSnapshots cfgA envC9 "home" 0).2
    ∧ ("Could not get info for " ++ "home-20230101-120000")
      ∈ (getSnapshotsByPfxBM cfgA (.listable entriesC9) "home").2 := by
  have h := c9_unreadable_entry_dropped cfgA envC9 entriesC9 "home"
    "home-20230101-120000" 0 (by decide) rfl
  exact ⟨h.1, h.2.2.1, h.2.2.2 (by decide) (by decide)⟩

/-- Claim C10: after a successful delete command, the deletion is reported
failed with the message that the snapshot still exists exactly when the
confirmation stat succeeds; a not-exist stat error and any other stat
error, a permission error included, both count as successful deletion. -/
theorem c10_delete_confirmation (cfg : Config) (e : Env) (nm : String)
    (hcmd : e.deleteCmdOk nm = true) :
    (deleteSnapshot cfg e nm
        = .error ("snapshot still exists after deletion: " ++ joinPath cfg.snapshotDir nm)
      ↔ e.statAfterDelete nm = .ok)
    ∧ (e.statAfterDelete nm = .notExist → deleteSnapshot cfg e nm = .ok ())
    ∧ (e.statAfterDelete nm = .otherErr → deleteSnapshot cfg e nm = .ok ()) := by
  unfold deleteSnapshot
  rcases h : e.statAfterDelete nm with _ | _ | _ <;> simp [hcmd, h]

/-- Witness for c10_delete_confirmation: a permission error on the
confirmation stat counts as success, while a succeeding stat is reported
as the snapshot still existing. -/
theorem c10_delete_confirmation_witness :
    deleteSnapshot cfgA envD1 "home-x" = .ok ()
    ∧ deleteSnapshot cfgA envD2 "home-x"
      = .error "snapshot still exists after deletion: /snapshots/home-x" := by
  have h1 := c10_delete_confirmation cfgA envD1 "home-x" rfl
  have h2 := c10_delete_confirmation cfgA envD2 "home-x" rfl
  exact ⟨h1.2.2 rfl, h2.1.mpr rfl⟩

end BtrfsBackup
